import Mathlib

/-!
Verification development for the FlashPaper persistence engine.

This file embeds, in Lean, the data model and operations of the FlashPaper
repository (a PrivateBin-compatible encrypted pastebin written in Go) and
settles a list of claims about them.

Embedding conventions:
* Go `int64`/`int` values (Unix timestamps, batch sizes) are modelled as `Int`;
  byte values as `Nat`.
* The filesystem backend (`internal/storage/filesystem.go`) is modelled as an
  association list keyed by the paths the code writes: one entry per paste file
  (keyed by id, the path `base/id[0:2]/id[2:4]/id` is injective in id), one
  entry per comment file (keyed by the triple (pasteID, parentID, commentID),
  the filename `{commentID}.{parentID}.json` inside `pastePath(pasteID).discussion`),
  and one entry per `_config` file (keyed by (namespace, key)).
* The database backend (`internal/storage/database.go`) is modelled as
  association lists for its three tables, keyed by their primary keys:
  `paste.dataid`, `comment.dataid` (a global primary key), `config.id`.
* JSON (de)serialization of the storage structs is the identity on the modelled
  fields; the single observable effect of marshalling is that
  `PasteMeta.Salt` carries the tag `json:"-"` and is therefore dropped
  (read back as the empty string).
* I/O faults, locking and goroutine scheduling are outside the model; the
  burn-after-reading deferred delete of `Handler.getPaste` is modelled
  explicitly as a pending action that runs after the response is produced.
-/

/-- Errors of the `model` package (`internal/model/errors.go`) that the storage
layer can surface. -/
inductive StorageErr where
  | pasteNotFound
  | pasteExpired
  | pasteExists
  | commentNotFound
  | commentExists
  deriving Repr, DecidableEq

/-- `model.PasteMeta` (`internal/model/paste.go`): the metadata block of a
paste. `Salt` carries the Go tag `json:"-"` and is never serialized. -/
structure PasteMeta where
  postDate : Int
  expireDate : Int
  expire : String
  burnAfterReading : Bool
  openDiscussion : Bool
  formatter : String
  salt : String
  timeToLive : Int
  deriving Repr, DecidableEq

/-- `model.Paste` (`internal/model/paste.go`), restricted to the fields that
are ever persisted (DeleteToken, URL, Comments, CommentCount, CommentOffset
are response-only and never stored). `adata` is the raw JSON blob, opaque to
storage. -/
structure Paste where
  id : String
  data : String
  attachmentName : String
  attachment : String
  adata : String
  version : Int
  meta : PasteMeta
  deriving Repr, DecidableEq

/-- `model.CommentMeta` (`internal/model/comment.go`). -/
structure CommentMeta where
  postDate : Int
  icon : String
  nickname : String
  deriving Repr, DecidableEq

/-- `model.Comment` (`internal/model/comment.go`), restricted to the persisted
fields. -/
structure Comment where
  id : String
  pasteID : String
  parentID : String
  data : String
  adata : String
  version : Int
  vizhash : String
  meta : CommentMeta
  deriving Repr, DecidableEq

/-- `Paste.IsExpired` (`internal/model/paste.go`): a paste with
`ExpireDate = 0` never expires; otherwise it is expired when
`time.Now().Unix() > ExpireDate` (strictly). `now` is passed explicitly. -/
def Paste.IsExpired (p : Paste) (now : Int) : Bool :=
  if p.meta.expireDate = 0 then false
  else decide (now > p.meta.expireDate)

/-- `Paste.IsBurnAfterReading` (`internal/model/paste.go`). -/
def Paste.IsBurnAfterReading (p : Paste) : Bool :=
  p.meta.burnAfterReading

/-- `Paste.HasDiscussion` (`internal/model/paste.go`). -/
def Paste.HasDiscussion (p : Paste) : Bool :=
  p.meta.openDiscussion

/-- Effect of `json.Marshal` on `model.PasteMeta`: every field is kept except
`Salt`, which is tagged `json:"-"` and reads back as the empty string. -/
def marshalMeta (m : PasteMeta) : PasteMeta :=
  { m with salt := "" }

/-- `pasteStorageData` (`internal/storage/filesystem.go`): the JSON structure
written into a paste file. -/
structure PasteStorageData where
  data : String
  attachmentName : String
  attachment : String
  adata : String
  version : Int
  meta : PasteMeta
  deriving Repr, DecidableEq

/-- The `pasteStorageData` value `Filesystem.CreatePaste` marshals for a paste
(the meta block is serialized without its salt). -/
def pasteStorageOf (p : Paste) : PasteStorageData :=
  ⟨p.data, p.attachmentName, p.attachment, p.adata, p.version, marshalMeta p.meta⟩

/-- The `model.Paste` that `Filesystem.ReadPaste` rebuilds from a stored file. -/
def pasteOfStorage (id : String) (d : PasteStorageData) : Paste :=
  ⟨id, d.data, d.attachmentName, d.attachment, d.adata, d.version, d.meta⟩

/-- `commentStorageData` (`internal/storage/filesystem.go`): the JSON structure
written into a comment file. -/
structure CommentStorageData where
  data : String
  adata : String
  version : Int
  vizhash : String
  postDate : Int
  deriving Repr, DecidableEq

/-- The `commentStorageData` value `Filesystem.CreateComment` marshals. -/
def commentStorageOf (c : Comment) : CommentStorageData :=
  ⟨c.data, c.adata, c.version, c.vizhash, c.meta.postDate⟩

/-- The `model.Comment` that `Filesystem.ReadComments` rebuilds from a comment
file named `{commentID}.{parentID}.json` inside the paste's discussion
directory. -/
def commentOfStorage (pid parid cid : String) (d : CommentStorageData) : Comment :=
  ⟨cid, pid, parid, d.data, d.adata, d.version, d.vizhash, ⟨d.postDate, "", ""⟩⟩

/-- On-disk state of the filesystem backend `storage.Filesystem`:
paste files keyed by id, comment files keyed by (pasteID, parentID, commentID),
config files keyed by (namespace, key). A real directory cannot hold two files
of the same name, so reachable states have pairwise distinct keys. -/
structure FsState where
  pastes : List (String × PasteStorageData)
  comments : List ((String × String × String) × CommentStorageData)
  kv : List ((String × String) × String)
  deriving Repr, DecidableEq

/-- `Filesystem.CreatePaste` (`internal/storage/filesystem.go`): existence
probe via `os.Stat`, then an atomic temp-file+rename write of the marshalled
`pasteStorageData`. -/
def Filesystem.CreatePaste (s : FsState) (id : String) (p : Paste) :
    Except StorageErr FsState :=
  if (s.pastes.lookup id).isSome then .error .pasteExists
  else .ok { s with pastes := (id, pasteStorageOf p) :: s.pastes }

/-- `Filesystem.DeletePaste` (`internal/storage/filesystem.go`): missing paste
file yields `ErrPasteNotFound`; otherwise the `.discussion` directory (all
comment files of the paste) is removed recursively, then the paste file. -/
def Filesystem.DeletePaste (s : FsState) (id : String) :
    Except StorageErr FsState :=
  if (s.pastes.lookup id).isSome then
    .ok { s with
          pastes := s.pastes.filter (fun kv => kv.1 != id),
          comments := s.comments.filter (fun kv => kv.1.1 != id) }
  else .error .pasteNotFound

/-- `Filesystem.ReadPaste` (`internal/storage/filesystem.go`): missing file
yields `ErrPasteNotFound`; otherwise the file is unmarshalled and, if the paste
`IsExpired`, the backend deletes it (the delete's own result is discarded) and
returns `ErrPasteExpired`. The new state is returned alongside the result. -/
def Filesystem.ReadPaste (s : FsState) (now : Int) (id : String) :
    Except StorageErr Paste × FsState :=
  match s.pastes.lookup id with
  | none => (.error .pasteNotFound, s)
  | some d =>
    let p := pasteOfStorage id d
    if p.IsExpired now then
      (.error .pasteExpired,
        match Filesystem.DeletePaste s id with
        | .ok s' => s'
        | .error _ => s)
    else (.ok p, s)

/-- `Filesystem.PasteExists` (`internal/storage/filesystem.go`): a pure
`os.Stat` probe of the paste file. -/
def Filesystem.PasteExists (s : FsState) (id : String) : Bool :=
  (s.pastes.lookup id).isSome

/-- `Filesystem.CreateComment` (`internal/storage/filesystem.go`): the paste
file must exist (`ErrPasteNotFound` otherwise); the comment file at
`{commentID}.{parentID}.json` must not (`ErrCommentExists` otherwise); then the
marshalled `commentStorageData` is written atomically. -/
def Filesystem.CreateComment (s : FsState) (pid parid cid : String)
    (c : Comment) : Except StorageErr FsState :=
  if (s.pastes.lookup pid).isSome = false then .error .pasteNotFound
  else if (s.comments.lookup (pid, parid, cid)).isSome then .error .commentExists
  else .ok { s with comments := ((pid, parid, cid), commentStorageOf c) :: s.comments }

/-- Insertion step of the `sort.Slice` comparator of
`Filesystem.ReadComments`: ascending `Meta.PostDate`. -/
def insertByPostDate (c : Comment) : List Comment → List Comment
  | [] => [c]
  | d :: rest =>
    if c.meta.postDate < d.meta.postDate then c :: d :: rest
    else d :: insertByPostDate c rest

/-- Sorting by ascending `Meta.PostDate`, as `Filesystem.ReadComments` and the
SQL `ORDER BY postdate ASC` of `Database.ReadComments` do. -/
def sortByPostDate : List Comment → List Comment
  | [] => []
  | c :: rest => insertByPostDate c (sortByPostDate rest)

/-- `Filesystem.ReadComments` (`internal/storage/filesystem.go`): a missing
discussion directory means no comments (`nil, nil` in Go — an empty list, not
an error); otherwise every comment file of the paste is unmarshalled and the
list is sorted by post date. -/
def Filesystem.ReadComments (s : FsState) (pid : String) :
    Except StorageErr (List Comment) :=
  .ok (sortByPostDate
    ((s.comments.filter (fun kv => kv.1.1 == pid)).map
      (fun kv => commentOfStorage kv.1.1 kv.1.2.1 kv.1.2.2 kv.2)))

/-- `Filesystem.CommentExists` (`internal/storage/filesystem.go`). -/
def Filesystem.CommentExists (s : FsState) (pid parid cid : String) : Bool :=
  (s.comments.lookup (pid, parid, cid)).isSome

/-- The directory walk of `Filesystem.GetExpiredPastes`
(`internal/storage/filesystem.go`): each paste file whose meta satisfies
`ExpireDate > 0 && ExpireDate < now` is collected; the walk short-circuits with
`filepath.SkipAll` as soon as `len(expired) >= batchSize` — the check runs
AFTER the append, so even `batchSize <= 0` returns one id once a first expired
paste is seen. `acc` holds the collected ids in reverse order. -/
def fsScanExpired (now batchSize : Int) (acc : List String) :
    List (String × PasteStorageData) → List String
  | [] => acc.reverse
  | (id, d) :: rest =>
    if 0 < d.meta.expireDate ∧ d.meta.expireDate < now then
      let acc' := id :: acc
      if batchSize ≤ (acc'.length : Int) then acc'.reverse
      else fsScanExpired now batchSize acc' rest
    else fsScanExpired now batchSize acc rest

/-- `Filesystem.GetExpiredPastes` (`internal/storage/filesystem.go`). -/
def Filesystem.GetExpiredPastes (s : FsState) (now batchSize : Int) :
    List String :=
  fsScanExpired now batchSize [] s.pastes

/-- The shared purge loop of `Filesystem.Purge` and `Database.Purge`: delete
each id in turn; `ErrPasteNotFound` is tolerated (counted as purged and the
loop continues); any other error stops the loop at once, returning the count
accumulated so far. Generic in the state type so it can be instantiated with
either backend's `DeletePaste`. -/
def purgeLoop {σ : Type} (del : σ → String → Except StorageErr σ) :
    σ → List String → Nat × σ × Option StorageErr
  | s, [] => (0, s, none)
  | s, id :: rest =>
    match del s id with
    | .ok s' =>
      let r := purgeLoop del s' rest
      (r.1 + 1, r.2)
    | .error e =>
      if e = .pasteNotFound then
        let r := purgeLoop del s rest
        (r.1 + 1, r.2)
      else (0, s, some e)

/-- `Filesystem.Purge` (`internal/storage/filesystem.go`): collect up to
`batchSize` expired ids, then run the delete loop. Returns the count, the
resulting state, and the error (if any) that stopped the batch. -/
def Filesystem.Purge (s : FsState) (now batchSize : Int) :
    Nat × FsState × Option StorageErr :=
  purgeLoop Filesystem.DeletePaste s (Filesystem.GetExpiredPastes s now batchSize)

/-- `Filesystem.SetValue` (`internal/storage/filesystem.go`): last-writer-wins
write of one flat file per (namespace, key). -/
def Filesystem.SetValue (s : FsState) (ns key value : String) : FsState :=
  { s with kv := ((ns, key), value) :: s.kv.filter (fun kv => kv.1 != (ns, key)) }

/-- `Filesystem.GetValue` (`internal/storage/filesystem.go`): a missing file
reads as the empty string, not an error. -/
def Filesystem.GetValue (s : FsState) (ns key : String) : String :=
  (s.kv.lookup (ns, key)).getD ""

/-- The JSON structure `Database.CreatePaste` packs into the `data` column:
ciphertext, attachment, attachment name, adata and version (the meta block is
stored separately). -/
structure DbPasteData where
  data : String
  attachmentName : String
  attachment : String
  adata : String
  version : Int
  deriving Repr, DecidableEq

/-- One row of the `paste` table (`Database.createTables`):
`dataid` is the primary key (held as the association-list key), `data` and
`meta` are JSON text columns, `expiredate` is a BIGINT column. -/
structure DbPasteRow where
  data : DbPasteData
  expiredate : Int
  meta : PasteMeta
  deriving Repr, DecidableEq

/-- The JSON structure `Database.CreateComment` packs into the comment `data`
column. -/
structure DbCommentData where
  data : String
  adata : String
  version : Int
  deriving Repr, DecidableEq

/-- One row of the `comment` table (`Database.createTables`): `dataid` is the
PRIMARY KEY of the whole table — global across pastes and parents — and is held
as the association-list key. -/
structure DbCommentRow where
  pasteid : String
  parentid : String
  data : DbCommentData
  vizhash : String
  postdate : Int
  deriving Repr, DecidableEq

/-- State of the database backend `storage.Database`: the three tables of
`createTables`, each keyed by its primary key. Primary-key uniqueness means
reachable states have pairwise distinct keys. -/
structure DbState where
  paste : List (String × DbPasteRow)
  comment : List (String × DbCommentRow)
  config : List (String × String)
  deriving Repr, DecidableEq

/-- `Database.CreatePaste` (`internal/storage/database.go`): a single INSERT;
a unique-constraint violation on the `dataid` primary key — i.e. the id is
already present — maps to `ErrPasteExists`. The `expiredate` column is set from
`paste.Meta.ExpireDate`, the `meta` column from the marshalled meta (without
salt). -/
def Database.CreatePaste (s : DbState) (id : String) (p : Paste) :
    Except StorageErr DbState :=
  if (s.paste.lookup id).isSome then .error .pasteExists
  else .ok { s with paste :=
    (id, ⟨⟨p.data, p.attachmentName, p.attachment, p.adata, p.version⟩,
          p.meta.expireDate, marshalMeta p.meta⟩) :: s.paste }

/-- `Database.DeletePaste` (`internal/storage/database.go`): one transaction
deleting all comments with `pasteid = id`, then the paste row; zero rows
affected on the paste delete rolls the whole transaction back and yields
`ErrPasteNotFound` (so the comments are restored and the state is unchanged). -/
def Database.DeletePaste (s : DbState) (id : String) :
    Except StorageErr DbState :=
  if (s.paste.lookup id).isSome then
    .ok { s with
          paste := s.paste.filter (fun kv => kv.1 != id),
          comment := s.comment.filter (fun kv => kv.2.pasteid != id) }
  else .error .pasteNotFound

/-- The `model.Paste` that `Database.ReadPaste` rebuilds from a row: the
unmarshalled data and meta columns, with `Meta.ExpireDate` overwritten from the
`expiredate` column. -/
def pasteOfDbRow (id : String) (r : DbPasteRow) : Paste :=
  ⟨id, r.data.data, r.data.attachmentName, r.data.attachment, r.data.adata,
   r.data.version, { r.meta with expireDate := r.expiredate }⟩

/-- `Database.ReadPaste` (`internal/storage/database.go`): `sql.ErrNoRows`
maps to `ErrPasteNotFound`; an expired paste is deleted (the delete's result is
discarded) and `ErrPasteExpired` returned. -/
def Database.ReadPaste (s : DbState) (now : Int) (id : String) :
    Except StorageErr Paste × DbState :=
  match s.paste.lookup id with
  | none => (.error .pasteNotFound, s)
  | some r =>
    let p := pasteOfDbRow id r
    if p.IsExpired now then
      (.error .pasteExpired,
        match Database.DeletePaste s id with
        | .ok s' => s'
        | .error _ => s)
    else (.ok p, s)

/-- `Database.PasteExists` (`internal/storage/database.go`). -/
def Database.PasteExists (s : DbState) (id : String) : Bool :=
  (s.paste.lookup id).isSome

/-- `Database.CreateComment` (`internal/storage/database.go`): the paste must
exist (`ErrPasteNotFound`); the INSERT then fails with a unique-constraint
violation — mapped to `ErrCommentExists` — exactly when `commentID` is already
the `dataid` of ANY comment in the table, regardless of paste or parent. -/
def Database.CreateComment (s : DbState) (pid parid cid : String)
    (c : Comment) : Except StorageErr DbState :=
  if (s.paste.lookup pid).isSome = false then .error .pasteNotFound
  else if (s.comment.lookup cid).isSome then .error .commentExists
  else .ok { s with comment :=
    (cid, ⟨pid, parid, ⟨c.data, c.adata, c.version⟩, c.vizhash,
           c.meta.postDate⟩) :: s.comment }

/-- The `model.Comment` that `Database.ReadComments` rebuilds from a row. -/
def commentOfDbRow (cid : String) (r : DbCommentRow) : Comment :=
  ⟨cid, r.pasteid, r.parentid, r.data.data, r.data.adata, r.data.version,
   r.vizhash, ⟨r.postdate, "", ""⟩⟩

/-- `Database.ReadComments` (`internal/storage/database.go`): all rows with
`pasteid = pid`, ordered by `postdate` ascending; no rows is an empty list,
never an error. -/
def Database.ReadComments (s : DbState) (pid : String) :
    Except StorageErr (List Comment) :=
  .ok (sortByPostDate
    ((s.comment.filter (fun kv => kv.2.pasteid == pid)).map
      (fun kv => commentOfDbRow kv.1 kv.2)))

/-- `Database.CommentExists` (`internal/storage/database.go`): probes for a
row with this `dataid` AND `pasteid`. -/
def Database.CommentExists (s : DbState) (pid cid : String) : Bool :=
  ((s.comment.lookup cid).map (fun r => r.pasteid == pid)).getD false

/-- `Database.GetExpiredPastes` (`internal/storage/database.go`):
`SELECT dataid FROM paste WHERE expiredate > 0 AND expiredate < now LIMIT n`.
LIMIT is modelled with the semantics of the embedded engine (SQLite): a
negative limit means no limit, zero means no rows. -/
def Database.GetExpiredPastes (s : DbState) (now batchSize : Int) :
    List String :=
  let all := (s.paste.filter
    (fun kv => decide (0 < kv.2.expiredate) && decide (kv.2.expiredate < now))).map Prod.fst
  if batchSize < 0 then all else all.take batchSize.toNat

/-- `Database.Purge` (`internal/storage/database.go`): same loop as the
filesystem backend over `Database.GetExpiredPastes`. -/
def Database.Purge (s : DbState) (now batchSize : Int) :
    Nat × DbState × Option StorageErr :=
  purgeLoop Database.DeletePaste s (Database.GetExpiredPastes s now batchSize)

/-- Index of a character in the standard base64 alphabet
(`encoding/base64.StdEncoding`): A-Z, a-z, 0-9, then `+` and `/`. -/
def b64Index (c : Char) : Option Nat :=
  if 'A' ≤ c ∧ c ≤ 'Z' then some (c.toNat - 65)
  else if 'a' ≤ c ∧ c ≤ 'z' then some (c.toNat - 71)
  else if '0' ≤ c ∧ c ≤ '9' then some (c.toNat + 4)
  else if c = '+' then some 62
  else if c = '/' then some 63
  else none

/-- Quantum-by-quantum decoding of Go's `base64.StdEncoding.DecodeString`:
four characters at a time; a final quantum may end in one or two `=` padding
characters, after which no further input is allowed; any other shape or any
character outside the alphabet is a `CorruptInputError` (`none`). Go's default
(non-strict) decoder discards non-zero trailing bits of a padded quantum, so
distinct encodings such as `"AA=="` and `"AB=="` decode to the same bytes. -/
def b64Quantums : List Char → Option (List Nat)
  | [] => some []
  | a :: b :: c :: d :: rest =>
    match b64Index a, b64Index b with
    | some x, some y =>
      if c = '=' then
        if d = '=' ∧ rest.isEmpty then
          some [((x <<< 2) ||| (y >>> 4)) % 256]
        else none
      else
        match b64Index c with
        | some z =>
          if d = '=' then
            if rest.isEmpty then
              some [((x <<< 2) ||| (y >>> 4)) % 256,
                    (((y % 16) <<< 4) ||| (z >>> 2)) % 256]
            else none
          else
            match b64Index d with
            | some w =>
              match b64Quantums rest with
              | some t =>
                some ((((x <<< 2) ||| (y >>> 4)) % 256) ::
                      ((((y % 16) <<< 4) ||| (z >>> 2)) % 256) ::
                      ((((z % 4) <<< 6) ||| w) % 256) :: t)
              | none => none
            | none => none
        | none => none
    | _, _ => none
  | _ => none

/-- `base64.StdEncoding.DecodeString`: Go's decoder skips `\r` and `\n`, then
decodes quantum by quantum; `none` models a `CorruptInputError`. -/
def decodeBase64 (s : String) : Option (List Nat) :=
  b64Quantums (s.data.filter (fun ch => ch != '\r' && ch != '\n'))

/-- Lower-case hex digit, as produced by Go's `hex.EncodeToString`. -/
def hexDigit (n : Nat) : Char :=
  if n < 10 then Char.ofNat (48 + n) else Char.ofNat (87 + n)

/-- `hex.EncodeToString`: two lower-case hex characters per byte. -/
def hexEncode (bs : List Nat) : String :=
  String.mk (bs.foldr (fun b acc => hexDigit (b / 16) :: hexDigit (b % 16) :: acc) [])

/-- Modulus for 32-bit words: SHA-256 arithmetic is modulo `2 ^ 32`. -/
def m32 : Nat := 4294967296

/-- Right rotation of a 32-bit word (argument assumed `< m32`). -/
def rotr32 (n x : Nat) : Nat :=
  ((x >>> n) ||| (x <<< (32 - n))) % m32

/-- SHA-256 `Ch(x,y,z) = (x AND y) XOR ((NOT x) AND z)` on 32-bit words. -/
def shaCh (x y z : Nat) : Nat :=
  (x &&& y) ^^^ ((x ^^^ (m32 - 1)) &&& z)

/-- SHA-256 `Maj(x,y,z) = (x AND y) XOR (x AND z) XOR (y AND z)`. -/
def shaMaj (x y z : Nat) : Nat :=
  (x &&& y) ^^^ (x &&& z) ^^^ (y &&& z)

/-- SHA-256 `Σ0`. -/
def bigSigma0 (x : Nat) : Nat := rotr32 2 x ^^^ rotr32 13 x ^^^ rotr32 22 x

/-- SHA-256 `Σ1`. -/
def bigSigma1 (x : Nat) : Nat := rotr32 6 x ^^^ rotr32 11 x ^^^ rotr32 25 x

/-- SHA-256 `σ0`. -/
def smallSigma0 (x : Nat) : Nat := rotr32 7 x ^^^ rotr32 18 x ^^^ (x >>> 3)

/-- SHA-256 `σ1`. -/
def smallSigma1 (x : Nat) : Nat := rotr32 17 x ^^^ rotr32 19 x ^^^ (x >>> 10)

/-- The 64 SHA-256 round constants (FIPS 180-4, written in decimal). -/
def sha256K : List Nat :=
  [1116352408, 1899447441, 3049323471, 3921009573, 961987163,
   1508970993, 2453635748, 2870763221, 3624381080, 310598401,
   607225278, 1426881987, 1925078388, 2162078206, 2614888103,
   3248222580, 3835390401, 4022224774, 264347078, 604807628,
   770255983, 1249150122, 1555081692, 1996064986, 2554220882,
   2821834349, 2952996808, 3210313671, 3336571891, 3584528711,
   113926993, 338241895, 666307205, 773529912, 1294757372,
   1396182291, 1695183700, 1986661051, 2177026350, 2456956037,
   2730485921, 2820302411, 3259730800, 3345764771, 3516065817,
   3600352804, 4094571909, 275423344, 430227734, 506948616,
   659060556, 883997877, 958139571, 1322822218, 1537002063,
   1747873779, 1955562222, 2024104815, 2227730452, 2361852424,
   2428436474, 2756734187, 3204031479, 3329325298]

/-- The SHA-256 initial hash value (FIPS 180-4, written in decimal). -/
def sha256H0 : List Nat :=
  [1779033703, 3144134277, 1013904242, 2773480762,
   1359893119, 2600822924, 528734635, 1541459225]

/-- SHA-256 padding: append `0x80`, zero bytes, and the 64-bit big-endian bit
length so the total length is a multiple of 64 bytes. -/
def sha256Pad (msg : List Nat) : List Nat :=
  let len := msg.length
  let k := (119 - (len % 64)) % 64
  let bitLen := len * 8
  msg ++ [0x80] ++ List.replicate k 0 ++
    [(bitLen >>> 56) % 256, (bitLen >>> 48) % 256, (bitLen >>> 40) % 256,
     (bitLen >>> 32) % 256, (bitLen >>> 24) % 256, (bitLen >>> 16) % 256,
     (bitLen >>> 8) % 256, bitLen % 256]

/-- Big-endian packing of bytes into 32-bit words. -/
def bytesToWords : List Nat → List Nat
  | b0 :: b1 :: b2 :: b3 :: rest =>
    (((b0 <<< 24) ||| (b1 <<< 16)) ||| ((b2 <<< 8) ||| b3)) :: bytesToWords rest
  | _ => []

/-- Split a word list into 16-word blocks. The fuel argument (any bound on the
number of blocks, e.g. the list length) only serves structural termination. -/
def chunks16 : Nat → List Nat → List (List Nat)
  | 0, _ => []
  | _, [] => []
  | n + 1, w :: ws => ((w :: ws).take 16) :: chunks16 n ((w :: ws).drop 16)

/-- One step of the SHA-256 message-schedule extension: append
`σ1(W[t-2]) + W[t-7] + σ0(W[t-15]) + W[t-16]`. -/
def sha256ExtendStep (w : List Nat) : List Nat :=
  let t := w.length
  w ++ [(smallSigma1 (w.getD (t - 2) 0) + w.getD (t - 7) 0 +
         smallSigma0 (w.getD (t - 15) 0) + w.getD (t - 16) 0) % m32]

/-- Iterate a function `n` times. -/
def iterateN {α : Type} (f : α → α) : Nat → α → α
  | 0, a => a
  | n + 1, a => iterateN f n (f a)

/-- Extend a 16-word block to the 64-word SHA-256 message schedule. -/
def sha256Schedule (w16 : List Nat) : List Nat :=
  iterateN sha256ExtendStep 48 w16

/-- One SHA-256 compression round on the state `[a,b,c,d,e,f,g,h]` with the
round constant and schedule word `kw`. -/
def sha256Round (st : List Nat) (kw : Nat × Nat) : List Nat :=
  match st with
  | [a, b, c, d, e, f, g, h] =>
    let t1 := (h + bigSigma1 e + shaCh e f g + kw.1 + kw.2) % m32
    let t2 := (bigSigma0 a + shaMaj a b c) % m32
    [(t1 + t2) % m32, a, b, c, (d + t1) % m32, e, f, g]
  | _ => st

/-- Process one 16-word block: run the 64 rounds, then add the round output to
the incoming hash value word-wise. -/
def sha256Block (h : List Nat) (block : List Nat) : List Nat :=
  let w := sha256Schedule block
  let st := (sha256K.zip w).foldl sha256Round h
  (h.zip st).map (fun p => (p.1 + p.2) % m32)

/-- SHA-256 of a byte list, returning the 32-byte digest (big-endian words),
as computed by Go's `crypto/sha256`. -/
def sha256 (msg : List Nat) : List Nat :=
  let padded := sha256Pad msg
  let blocks := chunks16 padded.length (bytesToWords padded)
  let hfin := blocks.foldl sha256Block sha256H0
  hfin.foldr (fun w acc =>
    (w >>> 24) % 256 :: (w >>> 16) % 256 :: (w >>> 8) % 256 :: w % 256 :: acc) []

/-- HMAC-SHA256 (`crypto/hmac` with `sha256.New`): block size 64; a key longer
than one block is first hashed; the digest is
`H((key XOR opad) ++ H((key XOR ipad) ++ msg))`. -/
def hmacSHA256 (key msg : List Nat) : List Nat :=
  let k0 := if 64 < key.length then sha256 key else key
  let kp := k0 ++ List.replicate (64 - k0.length) 0
  let ipadKey := kp.map (fun b => b ^^^ 0x36)
  let opadKey := kp.map (fun b => b ^^^ 0x5c)
  sha256 (opadKey ++ sha256 (ipadKey ++ msg))

/-- UTF-8 bytes of a string. Paste ids are validated to be ASCII
(`[a-f0-9]{16}`) before use, where the UTF-8 encoding is the code point
itself. -/
def strBytes (s : String) : List Nat :=
  s.data.map Char.toNat

/-- Error of the crypto utilities: the salt failed base64 decoding. -/
inductive CryptoErr where
  | corruptBase64
  deriving Repr, DecidableEq

/-- `util.GenerateDeleteToken` (`internal/util/crypto.go`): base64-decode the
salt (an error here is returned to the caller), then return
`hex(HMAC-SHA256(key = salt bytes, message = pasteID))`. -/
def GenerateDeleteToken (pasteID salt : String) : Except CryptoErr String :=
  match decodeBase64 salt with
  | none => .error .corruptBase64
  | some key => .ok (hexEncode (hmacSHA256 key (strBytes pasteID)))

/-- `util.ValidateDeleteToken` (`internal/util/crypto.go`): recompute the
expected token — any generation error yields `false` — and compare with
`subtle.ConstantTimeCompare`, which returns 1 exactly when the two strings are
byte-for-byte equal (the constant-time execution itself is not modelled). -/
def ValidateDeleteToken (providedToken pasteID salt : String) : Bool :=
  match GenerateDeleteToken pasteID salt with
  | .error _ => false
  | .ok expected => providedToken == expected

/-- The delete token `Handler.createPaste` (`internal/handler/paste.go`) hands
to the creator: the generated token, or the empty string when generation
fails. -/
def handlerDeleteToken (pasteID salt : String) : String :=
  match GenerateDeleteToken pasteID salt with
  | .ok t => t
  | .error _ => ""

/-- The hard-coded degraded-security fallback salt of `Handler.initSalt`
(`internal/handler/handler.go`), installed when random salt generation fails. -/
def goFallbackSalt : String := "flashpaper-fallback-salt-change-me"

/-- Character class `[a-f0-9]` of the id pattern (`internal/util/id.go`). -/
def isLowerHexDigit (c : Char) : Bool :=
  ('a' ≤ c && c ≤ 'f') || ('0' ≤ c && c ≤ '9')

/-- Matcher for the anchored regular expression `^[a-f0-9]{16}$` of
`internal/util/id.go` (`idPattern`), unrolled as: exactly `k` more characters,
each in the class. -/
def matchIdChars : List Char → Nat → Bool
  | [], k => k == 0
  | _ :: _, 0 => false
  | c :: rest, k + 1 => isLowerHexDigit c && matchIdChars rest k

/-- `util.ValidateID` (`internal/util/id.go`): `idPattern.MatchString(id)` with
`idPattern = ^[a-f0-9]{16}$`. -/
def ValidateID (id : String) : Bool :=
  matchIdChars id.data 16

/-- Responses of `Handler.getPaste` (`internal/handler/paste.go`), abstracted
from HTTP: a success response carries the paste (ct, adata, attachment,
version, meta) and the comment list; the error arms are the 400/404/500
branches. -/
inductive GetPasteResp where
  | ok (p : Paste) (comments : List Comment)
  | invalidId
  | notFound
  | expired
  | failure
  deriving Repr, DecidableEq

/-- The error mapping of `Handler.getPaste`: `ErrPasteNotFound` and
`ErrPasteExpired` map to 404 responses, anything else to a 500. -/
def errResp : StorageErr → GetPasteResp
  | .pasteNotFound => .notFound
  | .pasteExpired => .expired
  | _ => .failure

/-- `Handler.getPaste` (`internal/handler/paste.go`) over the filesystem
backend: validate the id, read the paste, read the comments when discussion is
open (errors discarded), build the response — and, for a burn-after-reading
paste, schedule the delete to run AFTER the response is sent (in Go: a
goroutine sleeping 100ms before `DeletePaste`). The scheduled delete is
returned as a pending action, not applied to the state. -/
def Handler.getPaste (s : FsState) (now : Int) (id : String) :
    GetPasteResp × FsState × Option String :=
  if ValidateID id = false then (.invalidId, s, none)
  else
    match Filesystem.ReadPaste s now id with
    | (.error e, s') => (errResp e, s', none)
    | (.ok p, s') =>
      let comments :=
        if p.HasDiscussion then ((Filesystem.ReadComments s' id).toOption).getD []
        else []
      (.ok p comments, s', if p.IsBurnAfterReading then some id else none)

/-- Execution of the deferred burn-after-reading delete: the goroutine calls
`DeletePaste` and discards its error (it is only logged). -/
def runPendingDelete (s : FsState) (pd : Option String) : FsState :=
  match pd with
  | none => s
  | some id =>
    match Filesystem.DeletePaste s id with
    | .ok s' => s'
    | .error _ => s

/-! ### Association-list helper lemmas -/

/-- Looking up the key just inserted at the head. -/
theorem lookup_cons_self {β : Type} (l : List (String × β)) (a : String) (v : β) :
    ((a, v) :: l).lookup a = some v := by
  simp [List.lookup]

/-- Removing all bindings of key `b` does not change lookups of other keys. -/
theorem lookup_filter_ne {β : Type} (l : List (String × β)) (a b : String)
    (h : a ≠ b) :
    (l.filter (fun kv => kv.1 != b)).lookup a = l.lookup a := by
  induction l with
  | nil => rfl
  | cons kv t ih =>
    rcases kv with ⟨k, v⟩
    by_cases hk : k = b
    · subst hk
      have hak : (a == k) = false := beq_eq_false_iff_ne.mpr h
      simp [List.filter_cons, List.lookup_cons, hak, ih]
    · have hkb : (k != b) = true := bne_iff_ne.mpr hk
      by_cases hak : a = k
      · subst hak
        simp [List.filter_cons, hkb, List.lookup_cons]
      · have h2 : (a == k) = false := beq_eq_false_iff_ne.mpr hak
        simp [List.filter_cons, hkb, List.lookup_cons, h2, ih]

/-- Looking up a key after all its bindings have been removed. -/
theorem lookup_filter_self {β : Type} (l : List (String × β)) (b : String) :
    (l.filter (fun kv => kv.1 != b)).lookup b = none := by
  induction l with
  | nil => rfl
  | cons kv t ih =>
    rcases kv with ⟨k, v⟩
    by_cases hk : k = b
    · subst hk
      simp [List.filter_cons, ih]
    · have hkb : (k != b) = true := bne_iff_ne.mpr hk
      have h2 : (b == k) = false := beq_eq_false_iff_ne.mpr (Ne.symm hk)
      simp [List.filter_cons, hkb, List.lookup_cons, h2, ih]

/-- Keeping exactly the elements a previous filter dropped leaves nothing. -/
theorem filter_bne_filter_beq {α : Type} (l : List α) (f : α → String) (b : String) :
    ((l.filter (fun x => f x != b)).filter (fun x => f x == b)) = [] := by
  induction l with
  | nil => rfl
  | cons x t ih =>
    by_cases hx : f x = b
    · have h1 : (f x != b) = false := by
        simp [bne_eq_false_iff_eq, hx]
      simp [List.filter_cons, h1, ih]
    · have h1 : (f x != b) = true := bne_iff_ne.mpr hx
      have h2 : (f x == b) = false := beq_eq_false_iff_ne.mpr hx
      simp [List.filter_cons, h1, h2, ih]

/-! ### C7 — identifier validation -/

/-- Characterization of the unrolled `^[a-f0-9]{16}$` matcher. -/
theorem matchIdChars_iff (l : List Char) :
    ∀ k, matchIdChars l k = true ↔
      (l.length = k ∧ ∀ c ∈ l, isLowerHexDigit c = true) := by
  induction l with
  | nil =>
    intro k
    cases k <;> simp [matchIdChars]
  | cons c rest ih =>
    intro k
    cases k with
    | zero => simp [matchIdChars]
    | succ k =>
      simp only [matchIdChars, Bool.and_eq_true, ih k, List.length_cons,
        Nat.succ.injEq, List.mem_cons]
      constructor
      · rintro ⟨hc, hlen, hall⟩
        refine ⟨hlen, ?_⟩
        rintro x (rfl | hx)
        · exact hc
        · exact hall x hx
      · rintro ⟨hlen, hall⟩
        exact ⟨hall c (Or.inl rfl), hlen, fun x hx => hall x (Or.inr hx)⟩

/-- C7: `ValidateID s` is true exactly when `s` is 16 characters long and
every character is in `[a-f0-9]`; any other string — wrong length, uppercase,
non-hex characters, path separators — is rejected. Confirms the claim. -/
theorem c7_validateID_iff (s : String) :
    ValidateID s = true ↔
      (s.length = 16 ∧ ∀ c ∈ s.data, isLowerHexDigit c = true) :=
  matchIdChars_iff s.data 16

/-- Instantiation of `c7_validateID_iff` on a concrete well-formed id. -/
theorem c7_validateID_iff_witness : ValidateID "f468483c313401e8" = true :=
  (c7_validateID_iff "f468483c313401e8").mpr ⟨by decide, by decide⟩

/-! ### C1 — read of an expired paste -/

/-- C1 (amended): reading a paste whose nonzero expiration timestamp is
STRICTLY in the past (`expire < now`; the code tests `now > expire`, so at
`expire = now` the paste is still served) returns `Expired` and deletes the
record: a following `PasteExists` is false and a second `ReadPaste` is
`NotFound`, on both backends. -/
theorem c1_read_strictly_expired_deletes (s : FsState) (t : DbState)
    (now : Int) (id : String) (d : PasteStorageData) (r : DbPasteRow) :
    (s.pastes.lookup id = some d → d.meta.expireDate ≠ 0 →
      d.meta.expireDate < now →
      (Filesystem.ReadPaste s now id).1 = .error .pasteExpired ∧
      Filesystem.PasteExists (Filesystem.ReadPaste s now id).2 id = false ∧
      (Filesystem.ReadPaste (Filesystem.ReadPaste s now id).2 now id).1 =
        .error .pasteNotFound) ∧
    (t.paste.lookup id = some r → r.expiredate ≠ 0 → r.expiredate < now →
      (Database.ReadPaste t now id).1 = .error .pasteExpired ∧
      Database.PasteExists (Database.ReadPaste t now id).2 id = false ∧
      (Database.ReadPaste (Database.ReadPaste t now id).2 now id).1 =
        .error .pasteNotFound) := by
  constructor
  · intro hlk hne hlt
    have hexp : (pasteOfStorage id d).IsExpired now = true := by
      simp [Paste.IsExpired, pasteOfStorage, hne]
      exact hlt
    have hsome : (s.pastes.lookup id).isSome := by simp [hlk]
    have hread : Filesystem.ReadPaste s now id =
        (.error .pasteExpired,
         { s with pastes := s.pastes.filter (fun kv => kv.1 != id),
                  comments := s.comments.filter (fun kv => kv.1.1 != id) }) := by
      simp [Filesystem.ReadPaste, hlk, hexp, Filesystem.DeletePaste, hsome]
    refine ⟨by rw [hread], ?_, ?_⟩
    · rw [hread]
      simp [Filesystem.PasteExists, lookup_filter_self]
    · rw [hread]
      simp [Filesystem.ReadPaste, lookup_filter_self]
  · intro hlk hne hlt
    have hexp : (pasteOfDbRow id r).IsExpired now = true := by
      simp [Paste.IsExpired, pasteOfDbRow, hne]
      exact hlt
    have hsome : (t.paste.lookup id).isSome := by simp [hlk]
    have hread : Database.ReadPaste t now id =
        (.error .pasteExpired,
         { t with paste := t.paste.filter (fun kv => kv.1 != id),
                  comment := t.comment.filter (fun kv => kv.2.pasteid != id) }) := by
      simp [Database.ReadPaste, hlk, hexp, Database.DeletePaste, hsome]
    refine ⟨by rw [hread], ?_, ?_⟩
    · rw [hread]
      simp [Database.PasteExists, lookup_filter_self]
    · rw [hread]
      simp [Database.ReadPaste, lookup_filter_self]

/-- Sample metadata used by concrete instantiations. -/
def sampleMeta (e : Int) (burn disc : Bool) : PasteMeta :=
  ⟨10, e, "", burn, disc, "plaintext", "srv", 0⟩

/-- Sample paste used by concrete instantiations. -/
def samplePaste (e : Int) (burn disc : Bool) : Paste :=
  ⟨"", "Y3Qx", "", "", "", 2, sampleMeta e burn disc⟩

/-- A filesystem state holding exactly one paste. -/
def fsWith (id : String) (p : Paste) : FsState :=
  ⟨[(id, pasteStorageOf p)], [], []⟩

/-- A database state holding exactly one paste. -/
def dbWith (id : String) (p : Paste) : DbState :=
  ⟨[(id, ⟨⟨p.data, p.attachmentName, p.attachment, p.adata, p.version⟩,
          p.meta.expireDate, marshalMeta p.meta⟩)], [], []⟩

/-- Instantiation of `c1_read_strictly_expired_deletes`: a paste that expired
at time 5 read at time 6, on both backends. -/
theorem c1_read_strictly_expired_deletes_witness :
    ((Filesystem.ReadPaste (fsWith "aaaaaaaaaaaaaaaa" (samplePaste 5 false false))
        6 "aaaaaaaaaaaaaaaa").1 = .error .pasteExpired ∧
      Filesystem.PasteExists
        (Filesystem.ReadPaste (fsWith "aaaaaaaaaaaaaaaa" (samplePaste 5 false false))
          6 "aaaaaaaaaaaaaaaa").2 "aaaaaaaaaaaaaaaa" = false ∧
      (Filesystem.ReadPaste
        (Filesystem.ReadPaste (fsWith "aaaaaaaaaaaaaaaa" (samplePaste 5 false false))
          6 "aaaaaaaaaaaaaaaa").2 6 "aaaaaaaaaaaaaaaa").1 = .error .pasteNotFound) ∧
    ((Database.ReadPaste (dbWith "aaaaaaaaaaaaaaaa" (samplePaste 5 false false))
        6 "aaaaaaaaaaaaaaaa").1 = .error .pasteExpired ∧
      Database.PasteExists
        (Database.ReadPaste (dbWith "aaaaaaaaaaaaaaaa" (samplePaste 5 false false))
          6 "aaaaaaaaaaaaaaaa").2 "aaaaaaaaaaaaaaaa" = false ∧
      (Database.ReadPaste
        (Database.ReadPaste (dbWith "aaaaaaaaaaaaaaaa" (samplePaste 5 false false))
          6 "aaaaaaaaaaaaaaaa").2 6 "aaaaaaaaaaaaaaaa").1 = .error .pasteNotFound) :=
  ⟨(c1_read_strictly_expired_deletes
      (fsWith "aaaaaaaaaaaaaaaa" (samplePaste 5 false false))
      (dbWith "aaaaaaaaaaaaaaaa" (samplePaste 5 false false))
      6 "aaaaaaaaaaaaaaaa" (pasteStorageOf (samplePaste 5 false false))
      ⟨⟨"Y3Qx", "", "", "", 2⟩, 5, marshalMeta (sampleMeta 5 false false)⟩).1
      rfl (by decide) (by decide),
   (c1_read_strictly_expired_deletes
      (fsWith "aaaaaaaaaaaaaaaa" (samplePaste 5 false false))
      (dbWith "aaaaaaaaaaaaaaaa" (samplePaste 5 false false))
      6 "aaaaaaaaaaaaaaaa" (pasteStorageOf (samplePaste 5 false false))
      ⟨⟨"Y3Qx", "", "", "", 2⟩, 5, marshalMeta (sampleMeta 5 false false)⟩).2
      rfl (by decide) (by decide)⟩

/-- C1 counterexample to the claim as stated: with `expire = now` (which
satisfies `expire ≤ now` and `expire ≠ 0`) the code serves the paste instead
of returning `Expired`, because `Paste.IsExpired` tests `now > expire`
strictly. -/
theorem c1_boundary_counterexample :
    (samplePaste 5 false false).meta.expireDate = 5 ∧
    ((5 : Int) ≤ 5) ∧
    (samplePaste 5 false false).meta.expireDate ≠ 0 ∧
    (Filesystem.ReadPaste (fsWith "aaaaaaaaaaaaaaaa" (samplePaste 5 false false))
        5 "aaaaaaaaaaaaaaaa").1 =
      .ok (pasteOfStorage "aaaaaaaaaaaaaaaa"
        (pasteStorageOf (samplePaste 5 false false))) ∧
    Filesystem.PasteExists
      (Filesystem.ReadPaste (fsWith "aaaaaaaaaaaaaaaa" (samplePaste 5 false false))
        5 "aaaaaaaaaaaaaaaa").2 "aaaaaaaaaaaaaaaa" = true :=
  ⟨rfl, by decide, by decide, rfl, rfl⟩

/-! ### C3 — create-then-read round trip -/

/-- C3: creating a valid paste (non-empty ciphertext, consistent flags) under
a fresh id and reading it back immediately (at any time before its expiration)
returns byte-identical ciphertext, attachment, attachment name, adata, version
and the same burn-after-reading / open-discussion / formatter flags, on both
backends. Confirms the claim. -/
theorem c3_create_then_read_roundtrip (s : FsState) (t : DbState) (now : Int)
    (id : String) (p : Paste)
    (_hdata : p.data ≠ "")
    (_hflags : ¬(p.meta.burnAfterReading = true ∧ p.meta.openDiscussion = true))
    (hfs : s.pastes.lookup id = none)
    (hdb : t.paste.lookup id = none)
    (hnx : p.meta.expireDate = 0 ∨ now ≤ p.meta.expireDate) :
    ∃ s' t' q q',
      Filesystem.CreatePaste s id p = .ok s' ∧
      (Filesystem.ReadPaste s' now id).1 = .ok q ∧
      Database.CreatePaste t id p = .ok t' ∧
      (Database.ReadPaste t' now id).1 = .ok q' ∧
      q.data = p.data ∧ q.attachment = p.attachment ∧
      q.attachmentName = p.attachmentName ∧ q.adata = p.adata ∧
      q.version = p.version ∧
      q.meta.burnAfterReading = p.meta.burnAfterReading ∧
      q.meta.openDiscussion = p.meta.openDiscussion ∧
      q.meta.formatter = p.meta.formatter ∧
      q'.data = p.data ∧ q'.attachment = p.attachment ∧
      q'.attachmentName = p.attachmentName ∧ q'.adata = p.adata ∧
      q'.version = p.version ∧
      q'.meta.burnAfterReading = p.meta.burnAfterReading ∧
      q'.meta.openDiscussion = p.meta.openDiscussion ∧
      q'.meta.formatter = p.meta.formatter := by
  have hnotgt : p.meta.expireDate = 0 ∨ ¬(now > p.meta.expireDate) := by
    rcases hnx with h | h
    · exact Or.inl h
    · exact Or.inr (by omega)
  have hexpF : (pasteOfStorage id (pasteStorageOf p)).IsExpired now = false := by
    rcases hnotgt with h | h <;>
      simp [Paste.IsExpired, pasteOfStorage, pasteStorageOf, marshalMeta, h]
  have hexpD : (pasteOfDbRow id
      ⟨⟨p.data, p.attachmentName, p.attachment, p.adata, p.version⟩,
       p.meta.expireDate, marshalMeta p.meta⟩).IsExpired now = false := by
    rcases hnotgt with h | h <;>
      simp [Paste.IsExpired, pasteOfDbRow, marshalMeta, h]
  refine ⟨{ s with pastes := (id, pasteStorageOf p) :: s.pastes },
          { t with paste := (id,
              ⟨⟨p.data, p.attachmentName, p.attachment, p.adata, p.version⟩,
               p.meta.expireDate, marshalMeta p.meta⟩) :: t.paste },
          pasteOfStorage id (pasteStorageOf p),
          pasteOfDbRow id
            ⟨⟨p.data, p.attachmentName, p.attachment, p.adata, p.version⟩,
             p.meta.expireDate, marshalMeta p.meta⟩,
          ?_, ?_, ?_, ?_, rfl, rfl, rfl, rfl, rfl, rfl, rfl, rfl,
          rfl, rfl, rfl, rfl, rfl, rfl, rfl, rfl⟩
  · simp [Filesystem.CreatePaste, hfs]
  · simp [Filesystem.ReadPaste, hexpF]
  · simp [Database.CreatePaste, hdb]
  · simp [Database.ReadPaste, hexpD]

/-- Instantiation of `c3_create_then_read_roundtrip` on a concrete paste in
empty stores. -/
theorem c3_create_then_read_roundtrip_witness :
    ∃ s' t' q q',
      Filesystem.CreatePaste ⟨[], [], []⟩ "aaaaaaaaaaaaaaaa"
        (samplePaste 0 false false) = .ok s' ∧
      (Filesystem.ReadPaste s' 7 "aaaaaaaaaaaaaaaa").1 = .ok q ∧
      Database.CreatePaste ⟨[], [], []⟩ "aaaaaaaaaaaaaaaa"
        (samplePaste 0 false false) = .ok t' ∧
      (Database.ReadPaste t' 7 "aaaaaaaaaaaaaaaa").1 = .ok q' ∧
      q.data = (samplePaste 0 false false).data ∧
      q.attachment = (samplePaste 0 false false).attachment ∧
      q.attachmentName = (samplePaste 0 false false).attachmentName ∧
      q.adata = (samplePaste 0 false false).adata ∧
      q.version = (samplePaste 0 false false).version ∧
      q.meta.burnAfterReading = (samplePaste 0 false false).meta.burnAfterReading ∧
      q.meta.openDiscussion = (samplePaste 0 false false).meta.openDiscussion ∧
      q.meta.formatter = (samplePaste 0 false false).meta.formatter ∧
      q'.data = (samplePaste 0 false false).data ∧
      q'.attachment = (samplePaste 0 false false).attachment ∧
      q'.attachmentName = (samplePaste 0 false false).attachmentName ∧
      q'.adata = (samplePaste 0 false false).adata ∧
      q'.version = (samplePaste 0 false false).version ∧
      q'.meta.burnAfterReading = (samplePaste 0 false false).meta.burnAfterReading ∧
      q'.meta.openDiscussion = (samplePaste 0 false false).meta.openDiscussion ∧
      q'.meta.formatter = (samplePaste 0 false false).meta.formatter :=
  c3_create_then_read_roundtrip ⟨[], [], []⟩ ⟨[], [], []⟩ 7 "aaaaaaaaaaaaaaaa"
    (samplePaste 0 false false) (by decide) (by decide) rfl rfl (Or.inl rfl)

/-! ### C4 — duplicate create -/

/-- C4: once a paste has been created under an id, a second `CreatePaste` with
the same id fails with `AlreadyExists` on both backends, and a read afterwards
still returns the first write (the second paste is nowhere persisted — the
failing create returns no new state). Confirms the claim. -/
theorem c4_duplicate_create_rejected (s : FsState) (t : DbState) (now : Int)
    (id : String) (p1 p2 : Paste)
    (hnx : p1.meta.expireDate = 0 ∨ now ≤ p1.meta.expireDate) :
    (∀ s', s.pastes.lookup id = none →
      Filesystem.CreatePaste s id p1 = .ok s' →
      Filesystem.CreatePaste s' id p2 = .error .pasteExists ∧
      (Filesystem.ReadPaste s' now id).1 =
        .ok (pasteOfStorage id (pasteStorageOf p1))) ∧
    (∀ t', t.paste.lookup id = none →
      Database.CreatePaste t id p1 = .ok t' →
      Database.CreatePaste t' id p2 = .error .pasteExists ∧
      (Database.ReadPaste t' now id).1 =
        .ok (pasteOfDbRow id
          ⟨⟨p1.data, p1.attachmentName, p1.attachment, p1.adata, p1.version⟩,
           p1.meta.expireDate, marshalMeta p1.meta⟩)) := by
  have hnotgt : p1.meta.expireDate = 0 ∨ ¬(now > p1.meta.expireDate) := by
    rcases hnx with h | h
    · exact Or.inl h
    · exact Or.inr (by omega)
  constructor
  · intro s' hnone hok
    rw [Filesystem.CreatePaste, hnone] at hok
    simp at hok
    subst hok
    have hexpF : (pasteOfStorage id (pasteStorageOf p1)).IsExpired now = false := by
      rcases hnotgt with h | h <;>
        simp [Paste.IsExpired, pasteOfStorage, pasteStorageOf, marshalMeta, h]
    constructor
    · simp [Filesystem.CreatePaste]
    · simp [Filesystem.ReadPaste, hexpF]
  · intro t' hnone hok
    rw [Database.CreatePaste, hnone] at hok
    simp at hok
    subst hok
    have hexpD : (pasteOfDbRow id
        ⟨⟨p1.data, p1.attachmentName, p1.attachment, p1.adata, p1.version⟩,
         p1.meta.expireDate, marshalMeta p1.meta⟩).IsExpired now = false := by
      rcases hnotgt with h | h <;>
        simp [Paste.IsExpired, pasteOfDbRow, marshalMeta, h]
    constructor
    · simp [Database.CreatePaste]
    · simp [Database.ReadPaste, hexpD]

/-- Instantiation of `c4_duplicate_create_rejected`: create twice under the
same id in initially empty stores. -/
theorem c4_duplicate_create_rejected_witness :
    Filesystem.CreatePaste (fsWith "aaaaaaaaaaaaaaaa" (samplePaste 0 false false))
      "aaaaaaaaaaaaaaaa" (samplePaste 0 true false) = .error .pasteExists ∧
    Database.CreatePaste (dbWith "aaaaaaaaaaaaaaaa" (samplePaste 0 false false))
      "aaaaaaaaaaaaaaaa" (samplePaste 0 true false) = .error .pasteExists :=
  ⟨((c4_duplicate_create_rejected ⟨[], [], []⟩ ⟨[], [], []⟩ 7 "aaaaaaaaaaaaaaaa"
      (samplePaste 0 false false) (samplePaste 0 true false) (Or.inl rfl)).1
      (fsWith "aaaaaaaaaaaaaaaa" (samplePaste 0 false false)) rfl rfl).1,
   ((c4_duplicate_create_rejected ⟨[], [], []⟩ ⟨[], [], []⟩ 7 "aaaaaaaaaaaaaaaa"
      (samplePaste 0 false false) (samplePaste 0 true false) (Or.inl rfl)).2
      (dbWith "aaaaaaaaaaaaaaaa" (samplePaste 0 false false)) rfl rfl).1⟩

/-! ### C5 — cascading delete -/

/-- C5: deleting a stored paste removes it together with all of its comments —
a subsequent `ReadComments` returns the empty list, not an error — and deleting
an id with no stored paste fails with `NotFound`, on both backends. Confirms
the claim. -/
theorem c5_delete_cascades_comments (s : FsState) (t : DbState) (id : String) :
    ((s.pastes.lookup id).isSome = true → ∃ s',
        Filesystem.DeletePaste s id = .ok s' ∧
        s'.pastes.lookup id = none ∧
        Filesystem.ReadComments s' id = .ok []) ∧
    ((s.pastes.lookup id).isSome = false →
        Filesystem.DeletePaste s id = .error .pasteNotFound) ∧
    ((t.paste.lookup id).isSome = true → ∃ t',
        Database.DeletePaste t id = .ok t' ∧
        t'.paste.lookup id = none ∧
        Database.ReadComments t' id = .ok []) ∧
    ((t.paste.lookup id).isSome = false →
        Database.DeletePaste t id = .error .pasteNotFound) := by
  refine ⟨?_, ?_, ?_, ?_⟩
  · intro hsome
    refine ⟨{ s with pastes := s.pastes.filter (fun kv => kv.1 != id),
                     comments := s.comments.filter (fun kv => kv.1.1 != id) },
            ?_, ?_, ?_⟩
    · simp [Filesystem.DeletePaste, hsome]
    · exact lookup_filter_self s.pastes id
    · have hnil := filter_bne_filter_beq s.comments (fun kv => kv.1.1) id
      simp only [Filesystem.ReadComments]
      rw [hnil]
      rfl
  · intro hnone
    simp [Filesystem.DeletePaste, hnone]
  · intro hsome
    refine ⟨{ t with paste := t.paste.filter (fun kv => kv.1 != id),
                     comment := t.comment.filter (fun kv => kv.2.pasteid != id) },
            ?_, ?_, ?_⟩
    · simp [Database.DeletePaste, hsome]
    · exact lookup_filter_self t.paste id
    · have hnil := filter_bne_filter_beq t.comment (fun kv => kv.2.pasteid) id
      simp only [Database.ReadComments]
      rw [hnil]
      rfl
  · intro hnone
    simp [Database.DeletePaste, hnone]

/-- Instantiation of `c5_delete_cascades_comments`: a paste with one comment
on each backend, plus a delete of a missing id. -/
theorem c5_delete_cascades_comments_witness :
    (∃ s', Filesystem.DeletePaste
        ⟨[("aaaaaaaaaaaaaaaa", pasteStorageOf (samplePaste 0 false true))],
         [(("aaaaaaaaaaaaaaaa", "aaaaaaaaaaaaaaaa", "cccccccccccccccc"),
           ⟨"cd", "", 2, "viz", 3⟩)], []⟩ "aaaaaaaaaaaaaaaa" = .ok s' ∧
      s'.pastes.lookup "aaaaaaaaaaaaaaaa" = none ∧
      Filesystem.ReadComments s' "aaaaaaaaaaaaaaaa" = .ok []) ∧
    Filesystem.DeletePaste (⟨[], [], []⟩ : FsState) "bbbbbbbbbbbbbbbb" =
      .error .pasteNotFound ∧
    (∃ t', Database.DeletePaste
        ⟨[("aaaaaaaaaaaaaaaa",
           ⟨⟨"Y3Qx", "", "", "", 2⟩, 0, marshalMeta (sampleMeta 0 false true)⟩)],
         [("cccccccccccccccc",
           ⟨"aaaaaaaaaaaaaaaa", "aaaaaaaaaaaaaaaa", ⟨"cd", "", 2⟩, "viz", 3⟩)],
         []⟩ "aaaaaaaaaaaaaaaa" = .ok t' ∧
      t'.paste.lookup "aaaaaaaaaaaaaaaa" = none ∧
      Database.ReadComments t' "aaaaaaaaaaaaaaaa" = .ok []) ∧
    Database.DeletePaste (⟨[], [], []⟩ : DbState) "bbbbbbbbbbbbbbbb" =
      .error .pasteNotFound :=
  ⟨(c5_delete_cascades_comments
      ⟨[("aaaaaaaaaaaaaaaa", pasteStorageOf (samplePaste 0 false true))],
       [(("aaaaaaaaaaaaaaaa", "aaaaaaaaaaaaaaaa", "cccccccccccccccc"),
         ⟨"cd", "", 2, "viz", 3⟩)], []⟩
      ⟨[("aaaaaaaaaaaaaaaa",
         ⟨⟨"Y3Qx", "", "", "", 2⟩, 0, marshalMeta (sampleMeta 0 false true)⟩)],
       [("cccccccccccccccc",
         ⟨"aaaaaaaaaaaaaaaa", "aaaaaaaaaaaaaaaa", ⟨"cd", "", 2⟩, "viz", 3⟩)],
       []⟩ "aaaaaaaaaaaaaaaa").1 (by decide),
   (c5_delete_cascades_comments (⟨[], [], []⟩ : FsState)
      (⟨[], [], []⟩ : DbState) "bbbbbbbbbbbbbbbb").2.1 (by decide),
   (c5_delete_cascades_comments
      ⟨[("aaaaaaaaaaaaaaaa", pasteStorageOf (samplePaste 0 false true))],
       [(("aaaaaaaaaaaaaaaa", "aaaaaaaaaaaaaaaa", "cccccccccccccccc"),
         ⟨"cd", "", 2, "viz", 3⟩)], []⟩
      ⟨[("aaaaaaaaaaaaaaaa",
         ⟨⟨"Y3Qx", "", "", "", 2⟩, 0, marshalMeta (sampleMeta 0 false true)⟩)],
       [("cccccccccccccccc",
         ⟨"aaaaaaaaaaaaaaaa", "aaaaaaaaaaaaaaaa", ⟨"cd", "", 2⟩, "viz", 3⟩)],
       []⟩ "aaaaaaaaaaaaaaaa").2.2.1 (by decide),
   (c5_delete_cascades_comments (⟨[], [], []⟩ : FsState)
      (⟨[], [], []⟩ : DbState) "bbbbbbbbbbbbbbbb").2.2.2 (by decide)⟩

/-! ### C2 — burn after reading -/

/-- C2 (amended): for a stored, unexpired, burn-flagged paste, `getPaste`
serves the full paste content to the first reader, the read itself leaves the
store untouched (so the delete can never prevent or block serving that
reader), and it schedules a deferred delete; once the deferred delete has
executed, the paste is unreachable — `PasteExists` is false and any later read
is `NotFound`. (The deferral means a reader arriving before the delete runs
can still obtain the content; see the counterexample.) -/
theorem c2_burn_after_reading_deferred_delete (s : FsState) (now now2 : Int)
    (id : String) (d : PasteStorageData)
    (hlk : s.pastes.lookup id = some d)
    (hval : ValidateID id = true)
    (hnx : d.meta.expireDate = 0 ∨ now ≤ d.meta.expireDate)
    (hburn : d.meta.burnAfterReading = true) :
    (∃ cs, (Handler.getPaste s now id).1 = .ok (pasteOfStorage id d) cs) ∧
    (Handler.getPaste s now id).2.1 = s ∧
    (Handler.getPaste s now id).2.2 = some id ∧
    Filesystem.PasteExists
      (runPendingDelete (Handler.getPaste s now id).2.1
        (Handler.getPaste s now id).2.2) id = false ∧
    (Filesystem.ReadPaste
      (runPendingDelete (Handler.getPaste s now id).2.1
        (Handler.getPaste s now id).2.2) now2 id).1 = .error .pasteNotFound := by
  have hexp : (pasteOfStorage id d).IsExpired now = false := by
    rcases hnx with h | h
    · simp [Paste.IsExpired, pasteOfStorage, h]
    · have : ¬(now > d.meta.expireDate) := by omega
      simp [Paste.IsExpired, pasteOfStorage, this]
  have hread : Filesystem.ReadPaste s now id = (.ok (pasteOfStorage id d), s) := by
    simp [Filesystem.ReadPaste, hlk, hexp]
  have hget : Handler.getPaste s now id =
      (.ok (pasteOfStorage id d)
         (if (pasteOfStorage id d).HasDiscussion
          then ((Filesystem.ReadComments s id).toOption).getD [] else []),
       s, some id) := by
    simp [Handler.getPaste, hval, hread, Paste.IsBurnAfterReading,
      pasteOfStorage, hburn]
  have hsome : (s.pastes.lookup id).isSome := by simp [hlk]
  have hrun : runPendingDelete s (some id) =
      { s with pastes := s.pastes.filter (fun kv => kv.1 != id),
               comments := s.comments.filter (fun kv => kv.1.1 != id) } := by
    simp [runPendingDelete, Filesystem.DeletePaste, hsome]
  refine ⟨⟨_, by rw [hget]⟩, by rw [hget], by rw [hget], ?_, ?_⟩
  · rw [hget]
    simp only
    rw [hrun]
    simp [Filesystem.PasteExists, lookup_filter_self]
  · rw [hget]
    simp only
    rw [hrun]
    simp [Filesystem.ReadPaste, lookup_filter_self]

/-- Instantiation of `c2_burn_after_reading_deferred_delete` on a concrete
burn-flagged paste. -/
theorem c2_burn_after_reading_deferred_delete_witness :
    (∃ cs, (Handler.getPaste (fsWith "aaaaaaaaaaaaaaaa" (samplePaste 0 true false))
        9 "aaaaaaaaaaaaaaaa").1 =
      .ok (pasteOfStorage "aaaaaaaaaaaaaaaa"
        (pasteStorageOf (samplePaste 0 true false))) cs) ∧
    (Handler.getPaste (fsWith "aaaaaaaaaaaaaaaa" (samplePaste 0 true false))
        9 "aaaaaaaaaaaaaaaa").2.1 =
      fsWith "aaaaaaaaaaaaaaaa" (samplePaste 0 true false) ∧
    (Handler.getPaste (fsWith "aaaaaaaaaaaaaaaa" (samplePaste 0 true false))
        9 "aaaaaaaaaaaaaaaa").2.2 = some "aaaaaaaaaaaaaaaa" ∧
    Filesystem.PasteExists
      (runPendingDelete
        (Handler.getPaste (fsWith "aaaaaaaaaaaaaaaa" (samplePaste 0 true false))
          9 "aaaaaaaaaaaaaaaa").2.1
        (Handler.getPaste (fsWith "aaaaaaaaaaaaaaaa" (samplePaste 0 true false))
          9 "aaaaaaaaaaaaaaaa").2.2) "aaaaaaaaaaaaaaaa" = false ∧
    (Filesystem.ReadPaste
      (runPendingDelete
        (Handler.getPaste (fsWith "aaaaaaaaaaaaaaaa" (samplePaste 0 true false))
          9 "aaaaaaaaaaaaaaaa").2.1
        (Handler.getPaste (fsWith "aaaaaaaaaaaaaaaa" (samplePaste 0 true false))
          9 "aaaaaaaaaaaaaaaa").2.2) 11 "aaaaaaaaaaaaaaaa").1 =
      .error .pasteNotFound :=
  c2_burn_after_reading_deferred_delete
    (fsWith "aaaaaaaaaaaaaaaa" (samplePaste 0 true false)) 9 11
    "aaaaaaaaaaaaaaaa" (pasteStorageOf (samplePaste 0 true false))
    rfl (by decide) (Or.inl rfl) rfl

/-- C2 counterexample to the claim as stated: the burn delete is deferred to a
background task, so a second reader arriving BEFORE the deferred delete has
executed still receives the full content — the paste is not "unreachable to
any subsequent reader" once the first read returns. Both reads below observe
the state left by the first `getPaste`, with the pending delete not yet run. -/
theorem c2_second_reader_before_deferred_delete :
    (Handler.getPaste (fsWith "aaaaaaaaaaaaaaaa" (samplePaste 0 true false))
        9 "aaaaaaaaaaaaaaaa").1 =
      .ok (pasteOfStorage "aaaaaaaaaaaaaaaa"
        (pasteStorageOf (samplePaste 0 true false))) [] ∧
    (Handler.getPaste (fsWith "aaaaaaaaaaaaaaaa" (samplePaste 0 true false))
        9 "aaaaaaaaaaaaaaaa").2.2 = some "aaaaaaaaaaaaaaaa" ∧
    (Handler.getPaste
        (Handler.getPaste (fsWith "aaaaaaaaaaaaaaaa" (samplePaste 0 true false))
          9 "aaaaaaaaaaaaaaaa").2.1 9 "aaaaaaaaaaaaaaaa").1 =
      .ok (pasteOfStorage "aaaaaaaaaaaaaaaa"
        (pasteStorageOf (samplePaste 0 true false))) [] :=
  ⟨rfl, rfl, rfl⟩

/-! ### C6 — delete-token derivation and validation -/

/-- C6 (amended): the delete token for `(id, salt)` is deterministic and equal
to `hex(HMAC-SHA256(key = base64-decoded salt, message = id))`, and
`ValidateDeleteToken` accepts a presented token exactly when it equals that
value — so a token validates for its own pair, fails for any pair whose
expected token differs, but ALSO validates for a different salt string that
base64-decodes to the same key bytes (Go's non-strict decoder makes such
strings exist; see the counterexample). -/
theorem c6_delete_token_characterization :
    (∀ pasteID salt key, decodeBase64 salt = some key →
      GenerateDeleteToken pasteID salt =
        .ok (hexEncode (hmacSHA256 key (strBytes pasteID)))) ∧
    (∀ providedToken pasteID salt,
      ValidateDeleteToken providedToken pasteID salt = true ↔
        ∃ key, decodeBase64 salt = some key ∧
          providedToken = hexEncode (hmacSHA256 key (strBytes pasteID))) := by
  constructor
  · intro pasteID salt key h
    simp [GenerateDeleteToken, h]
  · intro providedToken pasteID salt
    cases hdec : decodeBase64 salt with
    | none => simp [ValidateDeleteToken, GenerateDeleteToken, hdec]
    | some key => simp [ValidateDeleteToken, GenerateDeleteToken, hdec]

/-- Instantiation of `c6_delete_token_characterization`: for the valid salt
`"AA=="` the generated token validates for its own (id, salt) pair. -/
theorem c6_delete_token_characterization_witness :
    GenerateDeleteToken "aaaaaaaaaaaaaaaa" "AA==" =
      .ok (hexEncode (hmacSHA256 [0] (strBytes "aaaaaaaaaaaaaaaa"))) ∧
    ValidateDeleteToken (hexEncode (hmacSHA256 [0] (strBytes "aaaaaaaaaaaaaaaa")))
      "aaaaaaaaaaaaaaaa" "AA==" = true :=
  ⟨c6_delete_token_characterization.1 "aaaaaaaaaaaaaaaa" "AA==" [0] (by decide),
   (c6_delete_token_characterization.2
      (hexEncode (hmacSHA256 [0] (strBytes "aaaaaaaaaaaaaaaa")))
      "aaaaaaaaaaaaaaaa" "AA==").mpr ⟨[0], by decide, rfl⟩⟩

/-- C6 counterexample to the claim as stated: the salts `"AA=="` and `"AB=="`
are different strings, yet Go's non-strict base64 decoder maps both to the
single key byte 0x00, so the token issued by the handler for
`("aaaaaaaaaaaaaaaa", "AA==")` also validates under the different secret
`"AB=="` — refuting "for every different secret validation of that token
returns false". -/
theorem c6_token_validates_for_different_salt :
    ("AA==" ≠ "AB==") ∧
    (GenerateDeleteToken "aaaaaaaaaaaaaaaa" "AA==").isOk = true ∧
    ValidateDeleteToken (handlerDeleteToken "aaaaaaaaaaaaaaaa" "AA==")
      "aaaaaaaaaaaaaaaa" "AB==" = true := by
  have h1 : decodeBase64 "AA==" = some [0] := by decide
  have h2 : decodeBase64 "AB==" = some [0] := by decide
  refine ⟨by decide, ?_, ?_⟩
  · simp [GenerateDeleteToken, h1, Except.isOk, Except.toBool]
  · simp [ValidateDeleteToken, GenerateDeleteToken, handlerDeleteToken, h1, h2]

/-! ### C9 — degraded-security fallback salt -/

/-- C9: for every salt string that is not valid standard base64 — in
particular the hard-coded fallback salt installed by `Handler.initSalt` when
random generation fails — `GenerateDeleteToken` returns an error and
`ValidateDeleteToken` returns false for every presented token and paste id, so
under the degraded fallback no delete token is ever issued or accepted.
Confirms the claim. -/
theorem c9_invalid_salt_never_tokens :
    decodeBase64 goFallbackSalt = none ∧
    ∀ salt, decodeBase64 salt = none → ∀ providedToken pasteID,
      GenerateDeleteToken pasteID salt = .error .corruptBase64 ∧
      ValidateDeleteToken providedToken pasteID salt = false := by
  refine ⟨by decide, ?_⟩
  intro salt h providedToken pasteID
  constructor
  · simp [GenerateDeleteToken, h]
  · simp [ValidateDeleteToken, GenerateDeleteToken, h]

/-- Instantiation of `c9_invalid_salt_never_tokens` at the fallback salt. -/
theorem c9_invalid_salt_never_tokens_witness :
    GenerateDeleteToken "aaaaaaaaaaaaaaaa" goFallbackSalt =
      .error .corruptBase64 ∧
    ValidateDeleteToken "t" "aaaaaaaaaaaaaaaa" goFallbackSalt = false :=
  c9_invalid_salt_never_tokens.2 goFallbackSalt (by decide) "t" "aaaaaaaaaaaaaaaa"

/-! ### C10 — backend divergence on comment ids -/

/-- Paste with open discussion used by the divergence scenario. -/
def discPaste : Paste := samplePaste 0 false true

/-- Comment used by the divergence scenario. -/
def sampleComment : Comment := ⟨"", "", "", "cd", "", 2, "viz", ⟨3, "", ""⟩⟩

/-- Filesystem state after `CreatePaste "aaaaaaaaaaaaaaaa"` on an empty store. -/
def fsSeq1 : FsState := ⟨[("aaaaaaaaaaaaaaaa", pasteStorageOf discPaste)], [], []⟩

/-- Filesystem state after a second `CreatePaste "bbbbbbbbbbbbbbbb"`. -/
def fsSeq2 : FsState :=
  ⟨[("bbbbbbbbbbbbbbbb", pasteStorageOf discPaste),
    ("aaaaaaaaaaaaaaaa", pasteStorageOf discPaste)], [], []⟩

/-- Filesystem state after commenting `"cccccccccccccccc"` on the first paste. -/
def fsSeq3 : FsState :=
  ⟨fsSeq2.pastes,
   [(("aaaaaaaaaaaaaaaa", "aaaaaaaaaaaaaaaa", "cccccccccccccccc"),
     commentStorageOf sampleComment)], []⟩

/-- Filesystem state after reusing comment id `"cccccccccccccccc"` under the
second paste — which the filesystem backend accepts. -/
def fsSeq4 : FsState :=
  ⟨fsSeq2.pastes,
   [(("bbbbbbbbbbbbbbbb", "bbbbbbbbbbbbbbbb", "cccccccccccccccc"),
     commentStorageOf sampleComment),
    (("aaaaaaaaaaaaaaaa", "aaaaaaaaaaaaaaaa", "cccccccccccccccc"),
     commentStorageOf sampleComment)], []⟩

/-- The database row the first `CreatePaste` inserts in the scenario. -/
def dbDiscRow : DbPasteRow := ⟨⟨"Y3Qx", "", "", "", 2⟩, 0, marshalMeta (sampleMeta 0 false true)⟩

/-- Database state after `CreatePaste "aaaaaaaaaaaaaaaa"` on an empty store. -/
def dbSeq1 : DbState := ⟨[("aaaaaaaaaaaaaaaa", dbDiscRow)], [], []⟩

/-- Database state after a second `CreatePaste "bbbbbbbbbbbbbbbb"`. -/
def dbSeq2 : DbState :=
  ⟨[("bbbbbbbbbbbbbbbb", dbDiscRow), ("aaaaaaaaaaaaaaaa", dbDiscRow)], [], []⟩

/-- Database state after commenting `"cccccccccccccccc"` on the first paste. -/
def dbSeq3 : DbState :=
  ⟨dbSeq2.paste,
   [("cccccccccccccccc",
     ⟨"aaaaaaaaaaaaaaaa", "aaaaaaaaaaaaaaaa", ⟨"cd", "", 2⟩, "viz", 3⟩)], []⟩

/-- C10: the two backends are not behaviorally equivalent for `CreateComment`.
Running the same operation sequence on both — create pastes `a…a` and `b…b`,
comment `c…c` on the first, then reuse comment id `c…c` under the second paste
with a different parent — the filesystem backend (which keys comments by the
full (pasteID, parentID, commentID) file name) accepts the second comment,
while the database backend (whose `comment.dataid` column is a global primary
key) rejects it with `AlreadyExists`. Confirms the claim. -/
theorem c10_backends_diverge_on_comment_id :
    Filesystem.CreatePaste ⟨[], [], []⟩ "aaaaaaaaaaaaaaaa" discPaste = .ok fsSeq1 ∧
    Filesystem.CreatePaste fsSeq1 "bbbbbbbbbbbbbbbb" discPaste = .ok fsSeq2 ∧
    Filesystem.CreateComment fsSeq2 "aaaaaaaaaaaaaaaa" "aaaaaaaaaaaaaaaa"
      "cccccccccccccccc" sampleComment = .ok fsSeq3 ∧
    Database.CreatePaste ⟨[], [], []⟩ "aaaaaaaaaaaaaaaa" discPaste = .ok dbSeq1 ∧
    Database.CreatePaste dbSeq1 "bbbbbbbbbbbbbbbb" discPaste = .ok dbSeq2 ∧
    Database.CreateComment dbSeq2 "aaaaaaaaaaaaaaaa" "aaaaaaaaaaaaaaaa"
      "cccccccccccccccc" sampleComment = .ok dbSeq3 ∧
    Filesystem.CreateComment fsSeq3 "bbbbbbbbbbbbbbbb" "bbbbbbbbbbbbbbbb"
      "cccccccccccccccc" sampleComment = .ok fsSeq4 ∧
    Database.CreateComment dbSeq3 "bbbbbbbbbbbbbbbb" "bbbbbbbbbbbbbbbb"
      "cccccccccccccccc" sampleComment = .error .commentExists :=
  ⟨rfl, rfl, rfl, rfl, rfl, rfl, rfl, rfl⟩

/-! ### C8 — purge helper lemmas -/

/-- The purge loop increments its counter once per processed id, so the count
never exceeds the id list handed to it. -/
theorem purgeLoop_count_le {σ : Type} (del : σ → String → Except StorageErr σ) :
    ∀ (ids : List String) (s : σ), (purgeLoop del s ids).1 ≤ ids.length := by
  intro ids
  induction ids with
  | nil => intro s; simp [purgeLoop]
  | cons id rest ih =>
    intro s
    cases hdel : del s id with
    | ok s' =>
      have := ih s'
      simp [purgeLoop, hdel]
      omega
    | error e =>
      by_cases he : e = .pasteNotFound
      · subst he
        have := ih s
        simp [purgeLoop, hdel]
        omega
      · simp [purgeLoop, hdel, he]

/-- Size bound of the filesystem expiry scan: starting from an accumulator
strictly below the batch size, the scan result never exceeds the batch size. -/
theorem fsScanExpired_length_le (now B : Int) :
    ∀ (l : List (String × PasteStorageData)) (acc : List String),
      (acc.length : Int) < B →
      ((fsScanExpired now B acc l).length : Int) ≤ B := by
  intro l
  induction l with
  | nil =>
    intro acc h
    simp only [fsScanExpired, List.length_reverse]
    omega
  | cons kv rest ih =>
    intro acc h
    rcases kv with ⟨id, d⟩
    by_cases hx : 0 < d.meta.expireDate ∧ d.meta.expireDate < now
    · by_cases hb : B ≤ ((acc.length + 1 : Nat) : Int)
      · simp only [fsScanExpired, List.length_cons, if_pos hx, if_pos hb,
          List.length_reverse]
        omega
      · simp only [fsScanExpired, List.length_cons, if_pos hx, if_neg hb]
        exact ih (id :: acc) (by simp only [List.length_cons]; omega)
    · simp only [fsScanExpired, if_neg hx]
      exact ih acc h

/-- Soundness of the filesystem expiry scan: every collected id either came in
through the accumulator or names a paste file stored with a nonzero, strictly
past expiration timestamp. -/
theorem fsScanExpired_mem (now B : Int) :
    ∀ (l : List (String × PasteStorageData)) (acc : List String) (id : String),
      id ∈ fsScanExpired now B acc l →
      id ∈ acc ∨ ∃ d, (id, d) ∈ l ∧ 0 < d.meta.expireDate ∧
        d.meta.expireDate < now := by
  intro l
  induction l with
  | nil =>
    intro acc id h
    simp only [fsScanExpired, List.mem_reverse] at h
    exact Or.inl h
  | cons kv rest ih =>
    intro acc id h
    rcases kv with ⟨k, d⟩
    by_cases hx : 0 < d.meta.expireDate ∧ d.meta.expireDate < now
    · by_cases hb : B ≤ ((k :: acc).length : Int)
      · simp only [fsScanExpired, if_pos hx, if_pos hb, List.mem_reverse,
          List.mem_cons] at h
        rcases h with rfl | h
        · exact Or.inr ⟨d, List.mem_cons_self _ _, hx⟩
        · exact Or.inl h
      · simp only [fsScanExpired, if_pos hx, if_neg hb] at h
        rcases ih (k :: acc) id h with hmem | ⟨d', hd', hx'⟩
        · rcases List.mem_cons.mp hmem with rfl | hmem
          · exact Or.inr ⟨d, List.mem_cons_self _ _, hx⟩
          · exact Or.inl hmem
        · exact Or.inr ⟨d', List.mem_cons_of_mem _ hd', hx'⟩
    · simp only [fsScanExpired, if_neg hx] at h
      rcases ih acc id h with hmem | ⟨d', hd', hx'⟩
      · exact Or.inl hmem
      · exact Or.inr ⟨d', List.mem_cons_of_mem _ hd', hx'⟩

/-- Soundness of the database expiry query: every selected id is the key of a
row whose `expiredate` is nonzero and strictly past. -/
theorem dbGetExpired_mem (t : DbState) (now B : Int) (id : String)
    (h : id ∈ Database.GetExpiredPastes t now B) :
    ∃ r, (id, r) ∈ t.paste ∧ 0 < r.expiredate ∧ r.expiredate < now := by
  have hall : id ∈ (t.paste.filter
      (fun kv => decide (0 < kv.2.expiredate) &&
        decide (kv.2.expiredate < now))).map Prod.fst := by
    simp only [Database.GetExpiredPastes] at h
    by_cases hb : B < 0
    · simpa [hb] using h
    · rw [if_neg hb] at h
      exact List.mem_of_mem_take h
  rcases List.mem_map.mp hall with ⟨kv, hkv, hfst⟩
  rcases List.mem_filter.mp hkv with ⟨hmem, hpred⟩
  simp only [Bool.and_eq_true, decide_eq_true_eq] at hpred
  refine ⟨kv.2, ?_, hpred.1, hpred.2⟩
  rcases kv with ⟨k, r⟩
  cases hfst
  exact hmem

/-- A key bound in an association list with pairwise distinct keys looks up to
exactly its bound value. -/
theorem lookup_eq_of_mem_nodup {β : Type} :
    ∀ (l : List (String × β)) (id : String) (d : β),
      (l.map Prod.fst).Nodup → (id, d) ∈ l → l.lookup id = some d := by
  intro l
  induction l with
  | nil => intro id d _ h; cases h
  | cons kv t ih =>
    intro id d hnd hm
    rcases kv with ⟨k, v⟩
    rcases List.nodup_cons.mp hnd with ⟨hknot, hndt⟩
    rcases List.mem_cons.mp hm with heq | hmem
    · cases heq
      exact List.lookup_cons_self
    · have hk : id ≠ k := by
        intro hc
        subst hc
        exact hknot (List.mem_map.mpr ⟨(id, d), hmem, rfl⟩)
      have hbeq : (id == k) = false := beq_eq_false_iff_ne.mpr hk
      rw [List.lookup_cons, hbeq]
      exact ih id d hndt hmem

/-- The filesystem purge loop never touches a paste whose id it was not
handed. -/
theorem fs_purgeLoop_preserves (id : String) :
    ∀ (ids : List String) (s : FsState), id ∉ ids →
      ((purgeLoop Filesystem.DeletePaste s ids).2.1).pastes.lookup id =
        s.pastes.lookup id := by
  intro ids
  induction ids with
  | nil => intro s _; rfl
  | cons j rest ih =>
    intro s hnotin
    have hij : id ≠ j := fun hc => hnotin (hc ▸ List.mem_cons_self j rest)
    have hrest : id ∉ rest := fun hc => hnotin (List.mem_cons_of_mem j hc)
    by_cases hj : (s.pastes.lookup j).isSome
    · have hdel : Filesystem.DeletePaste s j =
          .ok { s with pastes := s.pastes.filter (fun kv => kv.1 != j),
                       comments := s.comments.filter (fun kv => kv.1.1 != j) } := by
        simp [Filesystem.DeletePaste, hj]
      simp only [purgeLoop, hdel]
      rw [ih _ hrest]
      exact lookup_filter_ne s.pastes id j hij
    · have hdel : Filesystem.DeletePaste s j = .error .pasteNotFound := by
        simp [Filesystem.DeletePaste, hj]
      simp only [purgeLoop, hdel, if_pos rfl]
      exact ih _ hrest

/-- The database purge loop never touches a paste row whose id it was not
handed. -/
theorem db_purgeLoop_preserves (id : String) :
    ∀ (ids : List String) (t : DbState), id ∉ ids →
      ((purgeLoop Database.DeletePaste t ids).2.1).paste.lookup id =
        t.paste.lookup id := by
  intro ids
  induction ids with
  | nil => intro t _; rfl
  | cons j rest ih =>
    intro t hnotin
    have hij : id ≠ j := fun hc => hnotin (hc ▸ List.mem_cons_self j rest)
    have hrest : id ∉ rest := fun hc => hnotin (List.mem_cons_of_mem j hc)
    by_cases hj : (t.paste.lookup j).isSome
    · have hdel : Database.DeletePaste t j =
          .ok { t with paste := t.paste.filter (fun kv => kv.1 != j),
                       comment := t.comment.filter (fun kv => kv.2.pasteid != j) } := by
        simp [Database.DeletePaste, hj]
      simp only [purgeLoop, hdel]
      rw [ih _ hrest]
      exact lookup_filter_ne t.paste id j hij
    · have hdel : Database.DeletePaste t j = .error .pasteNotFound := by
        simp [Database.DeletePaste, hj]
      simp only [purgeLoop, hdel, if_pos rfl]
      exact ih _ hrest

/-- C8 (amended): for every positive batch size N, `Purge(N)` deletes at most
N pastes per call and never touches a paste whose expiration timestamp is zero
or not yet strictly past, on both backends (primary-key/path uniqueness of the
stored ids is the standing state invariant); the shared delete loop counts an
individual `NotFound` as success and continues, while any other delete error
is returned at once with the loop stopped and the state left as it was before
the failing delete. (For N ≤ 0 the bound fails on the filesystem backend: its
scan checks the bound only after appending — see the counterexample.) -/
theorem c8_purge_bounded_and_expired_only :
    (∀ (s : FsState) (now B : Int), 1 ≤ B →
      (Filesystem.Purge s now B).1 ≤ B.toNat) ∧
    (∀ (t : DbState) (now B : Int), 1 ≤ B →
      (Database.Purge t now B).1 ≤ B.toNat) ∧
    (∀ (s : FsState) (now B : Int) (id : String) (d : PasteStorageData),
      (s.pastes.map Prod.fst).Nodup →
      s.pastes.lookup id = some d →
      ¬(0 < d.meta.expireDate ∧ d.meta.expireDate < now) →
      ((Filesystem.Purge s now B).2.1).pastes.lookup id = some d) ∧
    (∀ (t : DbState) (now B : Int) (id : String) (r : DbPasteRow),
      (t.paste.map Prod.fst).Nodup →
      t.paste.lookup id = some r →
      ¬(0 < r.expiredate ∧ r.expiredate < now) →
      ((Database.Purge t now B).2.1).paste.lookup id = some r) ∧
    (∀ (σ : Type) (del : σ → String → Except StorageErr σ) (st : σ)
      (id : String) (rest : List String) (e : StorageErr),
      del st id = .error e → e ≠ .pasteNotFound →
      purgeLoop del st (id :: rest) = (0, st, some e)) ∧
    (∀ (σ : Type) (del : σ → String → Except StorageErr σ) (st : σ)
      (id : String) (rest : List String),
      del st id = .error .pasteNotFound →
      purgeLoop del st (id :: rest) =
        ((purgeLoop del st rest).1 + 1, (purgeLoop del st rest).2)) := by
  refine ⟨?_, ?_, ?_, ?_, ?_, ?_⟩
  · intro s now B hB
    have h1 := purgeLoop_count_le Filesystem.DeletePaste
      (Filesystem.GetExpiredPastes s now B) s
    have h2 := fsScanExpired_length_le now B s.pastes [] (by simpa using hB)
    simp only [Filesystem.GetExpiredPastes] at h1
    simp only [Filesystem.Purge, Filesystem.GetExpiredPastes]
    omega
  · intro t now B hB
    have h1 := purgeLoop_count_le Database.DeletePaste
      (Database.GetExpiredPastes t now B) t
    have hnneg : ¬(B < 0) := by omega
    have h2 : (Database.GetExpiredPastes t now B).length ≤ B.toNat := by
      simp only [Database.GetExpiredPastes, if_neg hnneg]
      rw [List.length_take]
      exact Nat.min_le_left _ _
    simp only [Database.Purge]
    omega
  · intro s now B id d hnd hlk hnx
    have hnotin : id ∉ Filesystem.GetExpiredPastes s now B := by
      intro hin
      rcases fsScanExpired_mem now B s.pastes [] id hin with h | ⟨d', hd', hx'⟩
      · cases h
      · have := lookup_eq_of_mem_nodup s.pastes id d' hnd hd'
        rw [hlk] at this
        cases this
        exact hnx hx'
    have := fs_purgeLoop_preserves id (Filesystem.GetExpiredPastes s now B) s hnotin
    simp only [Filesystem.Purge]
    rw [this, hlk]
  · intro t now B id r hnd hlk hnx
    have hnotin : id ∉ Database.GetExpiredPastes t now B := by
      intro hin
      rcases dbGetExpired_mem t now B id hin with ⟨r', hr', hx'⟩
      have := lookup_eq_of_mem_nodup t.paste id r' hnd hr'
      rw [hlk] at this
      cases this
      exact hnx hx'
    have := db_purgeLoop_preserves id (Database.GetExpiredPastes t now B) t hnotin
    simp only [Database.Purge]
    rw [this, hlk]
  · intro σ del st id rest e hdel he
    simp [purgeLoop, hdel, he]
  · intro σ del st id rest hdel
    simp [purgeLoop, hdel]

/-- Instantiation of `c8_purge_bounded_and_expired_only`: a batch of size 1
drains one expired paste on each backend, a never-expiring paste survives the
purge, and a delete failure other than `NotFound` stops the loop at once. -/
theorem c8_purge_bounded_and_expired_only_witness :
    (Filesystem.Purge (fsWith "aaaaaaaaaaaaaaaa" (samplePaste 5 false false))
      100 1).1 ≤ (1 : Int).toNat ∧
    (Database.Purge (dbWith "aaaaaaaaaaaaaaaa" (samplePaste 5 false false))
      100 1).1 ≤ (1 : Int).toNat ∧
    ((Filesystem.Purge (fsWith "aaaaaaaaaaaaaaaa" (samplePaste 0 false false))
      100 1).2.1).pastes.lookup "aaaaaaaaaaaaaaaa" =
        some (pasteStorageOf (samplePaste 0 false false)) ∧
    purgeLoop (fun (_ : FsState) _ =>
        (.error .pasteExpired : Except StorageErr FsState))
      (fsWith "aaaaaaaaaaaaaaaa" (samplePaste 0 false false))
      ["bbbbbbbbbbbbbbbb", "cccccccccccccccc"] =
      (0, fsWith "aaaaaaaaaaaaaaaa" (samplePaste 0 false false),
       some .pasteExpired) :=
  ⟨c8_purge_bounded_and_expired_only.1
     (fsWith "aaaaaaaaaaaaaaaa" (samplePaste 5 false false)) 100 1 (by decide),
   c8_purge_bounded_and_expired_only.2.1
     (dbWith "aaaaaaaaaaaaaaaa" (samplePaste 5 false false)) 100 1 (by decide),
   c8_purge_bounded_and_expired_only.2.2.1
     (fsWith "aaaaaaaaaaaaaaaa" (samplePaste 0 false false)) 100 1
     "aaaaaaaaaaaaaaaa" (pasteStorageOf (samplePaste 0 false false))
     (by decide) rfl (by decide),
   c8_purge_bounded_and_expired_only.2.2.2.2.1 FsState
     (fun _ _ => .error .pasteExpired)
     (fsWith "aaaaaaaaaaaaaaaa" (samplePaste 0 false false))
     "bbbbbbbbbbbbbbbb" ["cccccccccccccccc"] .pasteExpired rfl (by decide)⟩

/-- C8 counterexample to the claim as stated: with batch size N = 0 the
filesystem scan still collects one id, because the `len(expired) >= batchSize`
short-circuit is checked only after the first append — so `Purge(0)` deletes
one paste, not "at most 0". -/
theorem c8_zero_batch_deletes_one :
    (Filesystem.Purge (fsWith "aaaaaaaaaaaaaaaa" (samplePaste 5 false false))
      100 0).1 = 1 ∧
    ((Filesystem.Purge (fsWith "aaaaaaaaaaaaaaaa" (samplePaste 5 false false))
      100 0).2.1).pastes.lookup "aaaaaaaaaaaaaaaa" = none :=
  ⟨rfl, rfl⟩
